import Mathlib

/-!
Shallow embedding of `src/shell_test_10_final.py` (repository bailin-chen/CE221).

The script drives an incremental "pushover" analysis: `create_model` builds a
finite-element model (materials, a structured 10x10 shell mesh over four corner
points, edge frame members, and boundary conditions found by a tolerance-based
coordinate search `fix_at`), `static_analysis` distributes a pressure `p` as
nodal forces and invokes the external OpenSees solver once, and `main` ramps the
pressure from 0.0 by increments of 0.45 while the solver converges, exporting
CSV snapshots and a history file.

Modelling conventions:
* Python floats are embedded as exact rationals (`ℚ`); decimal literals such as
  `0.45` denote the exact decimal value.
* The external Analysis Engine (OpenSees) is out of scope per the design: its
  solve outcome is a parameter `engine : ℕ → EngineOutcome` (outcome of the
  k-th call), and its post-solve displacement query is a parameter
  `disp : ℕ → ℕ → ℕ → ℚ` (call index, node tag, DOF index).
* The mesh utility `model.surface` / `surface.walk_edge` belongs to the external
  library; it is modelled from the spec (structured quadrilateral mesh from four
  corner points, bilinear interpolation, with a perimeter edge walk).
* File writes are modelled by the data that would be written (file name and
  rows), collected in a `RunResult`.
-/

namespace ShellTest

/-- Material definitions appearing in `create_model`, as tagged variants. -/
inductive Material where
  | elasticIsotropic (tag : ℕ) (E nu : ℚ)
  | elasticUniaxial (tag : ℕ) (E : ℚ)
  | asdConcrete3D (tag : ℕ) (E nu : ℚ)
  | steel01 (tag : ℕ) (fy E0 b : ℚ)
  | plateRebar (tag : ℕ) (matTag : ℕ) (angle : ℚ)
  | concrete01 (tag : ℕ) (fpc epsc0 fpcu epsU : ℚ)
  deriving DecidableEq

/-- Section definitions appearing in `create_model`. -/
inductive SectionDef where
  | layeredShell (tag : ℕ) (layers : List (ℕ × ℚ))
  | fiberGJ (tag : ℕ) (gj : ℚ) (patchRect : ℕ × ℕ × ℕ × ℚ × ℚ × ℚ × ℚ)
  deriving DecidableEq

/-- A node: solver tag plus 3D coordinates. -/
structure Node3 where
  tag : ℕ
  x : ℚ
  y : ℚ
  z : ℚ
  deriving DecidableEq

/-- Element kinds used by the script. -/
inductive EleKind where
  | shellMITC4 (secTag : ℕ)
  | prismFrame (secTag : ℕ)
  deriving DecidableEq

/-- An element: tag, kind (with section), and referenced node tags. -/
structure Element where
  tag : ℕ
  kind : EleKind
  nodes : List ℕ
  deriving DecidableEq

/-- One nodal load entry added by `model.load(nid, fx, fy, fz, mx, my, mz, pattern=...)`. -/
structure LoadEntry where
  pattern : ℕ
  node : ℕ
  fx : ℚ
  fy : ℚ
  fz : ℚ
  mx : ℚ
  my : ℚ
  mz : ℚ
  deriving DecidableEq

/-- Numerical recipe configured by `static_analysis` (timeSeries, pattern,
integrator, test, algorithm, numberer, constraints handler, system, analysis). -/
structure AnalysisCfg where
  timeSeriesDef : Option (String × ℕ) := none
  patternDef : Option (String × ℕ × ℕ) := none
  integratorDef : Option (String × ℚ × ℕ × ℚ × ℚ) := none
  testDef : Option (String × ℚ × ℕ × ℕ) := none
  algorithmDef : Option String := none
  numbererDef : Option String := none
  constraintsDef : Option String := none
  systemDef : Option (String × String) := none
  analysisDef : Option String := none
  deriving DecidableEq

/-- The model state: nodes, elements, materials, sections, the set of fully
fixed nodes (the script only ever fixes all 6 DOF at once), applied nodal
loads, and the analysis configuration. -/
structure Model where
  nodes : List Node3
  elements : List Element
  materials : List Material
  sections : List SectionDef
  fixedNodes : List ℕ
  loads : List LoadEntry
  cfg : AnalysisCfg
  deriving DecidableEq

/-- Python's default relative tolerance in `math.isclose`. -/
def relTolDef : ℚ := 1e-9

/-- Python's `abs` on a rational, written so the kernel can evaluate it. -/
def qabs (a : ℚ) : ℚ :=
  if a < 0 then -a else a

/-- Python's binary `max` on rationals, written so the kernel can evaluate it. -/
def qmax (a b : ℚ) : ℚ :=
  if a ≤ b then b else a

/-- Embedding of `math.isclose(a, b, abs_tol=tol)` over exact rationals:
`abs(a-b) <= max(rel_tol * max(abs(a), abs(b)), abs_tol)` with the default
`rel_tol = 1e-9`. -/
def isclose (a b abs_tol : ℚ) : Bool :=
  decide (qabs (a - b) ≤ qmax (relTolDef * qmax (qabs a) (qabs b)) abs_tol)

/-- The per-node match test of `fix_at`: each coordinate is `isclose` to the
corresponding target coordinate with absolute tolerance `tol`. -/
def nodeMatches (x0 y0 z0 tol : ℚ) (nd : Node3) : Bool :=
  isclose nd.x x0 tol && isclose nd.y y0 tol && isclose nd.z z0 tol

/-- Embedding of the nested helper `fix_at` in `create_model`: collect all nodes
whose coordinates match the target within `tol`, then fix all 6 DOF of each.
The Python body contains no raise statement. -/
def fix_at (m : Model) (x0 y0 z0 tol : ℚ) : Model :=
  let fixed := (m.nodes.filter (nodeMatches x0 y0 z0 tol)).map (fun nd => nd.tag)
  { m with fixedNodes := m.fixedNodes ++ fixed }

/-- The spec's error taxonomy names a GeometryError for unresolvable node sets. -/
structure GeometryError where
  msg : String
  deriving DecidableEq

/-- The same `fix_at`, viewed in an error monad so that presence or absence of a
signaled error is expressible. The Python body of `fix_at` contains no raise
statement, so the embedding always returns `ok`. -/
def fix_atE (m : Model) (x0 y0 z0 tol : ℚ) : Except GeometryError Model :=
  Except.ok (fix_at m x0 y0 z0 tol)

/-- Modelled from the spec: the claimed behaviour "Fails if geometry generation
or constraint application cannot resolve a requested node set (signals a
GeometryError)" — a variant of `fix_at` that signals a `GeometryError` when the
tolerance search matches zero nodes. This definition follows the spec's words,
for comparison against the source's `fix_at`. -/
def fix_at_claimed (m : Model) (x0 y0 z0 tol : ℚ) : Except GeometryError Model :=
  if (m.nodes.filter (nodeMatches x0 y0 z0 tol)) = [] then
    Except.error ⟨"GeometryError: no node within tolerance of target"⟩
  else
    Except.ok (fix_at m x0 y0 z0 tol)

/-- Embedding of `model.fixZ(z0, 1,1,1, 1,1,1)`: fix all 6 DOF of every node
whose z coordinate equals `z0`. -/
def fixZ (m : Model) (z0 : ℚ) : Model :=
  { m with fixedNodes :=
      m.fixedNodes ++ ((m.nodes.filter (fun nd => nd.z == z0)).map (fun nd => nd.tag)) }

/-- A 3D point (the `points` dictionary entries). -/
structure Pt where
  x : ℚ
  y : ℚ
  z : ℚ
  deriving DecidableEq

/-- Bilinear interpolation of one coordinate over the four corner values,
parameters `u v ∈ [0,1]`. -/
def bilin (c1 c2 c3 c4 u v : ℚ) : ℚ :=
  (1 - u) * (1 - v) * c1 + u * (1 - v) * c2 + u * v * c3 + (1 - u) * v * c4

/-- Tag of grid node (i, j) in an (nx+1) x (ny+1) structured grid, 1-based. -/
def nodeTag (nx i j : ℕ) : ℕ :=
  j * (nx + 1) + i + 1

/-- Modelled from the spec: the external mesh utility behind `model.surface`
"generates a structured quadrilateral surface mesh from four corner points and
a resolution, returning node positions and element connectivity". Nodes form an
(nx+1) x (ny+1) grid, positioned by bilinear interpolation of the corners. -/
def surfaceNodes (nx ny : ℕ) (p1 p2 p3 p4 : Pt) : List Node3 :=
  (List.range (ny + 1)).flatMap (fun (j : ℕ) =>
    (List.range (nx + 1)).map (fun (i : ℕ) =>
      let u : ℚ := (i : ℚ) / (nx : ℚ)
      let v : ℚ := (j : ℚ) / (ny : ℚ)
      { tag := nodeTag nx i j
        x := bilin p1.x p2.x p3.x p4.x u v
        y := bilin p1.y p2.y p3.y p4.y u v
        z := bilin p1.z p2.z p3.z p4.z u v }))

/-- Modelled from the spec: the quadrilateral elements of the structured mesh
(`element='ShellMITC4'` with section tag from `args`). -/
def surfaceElements (nx ny secTag : ℕ) : List Element :=
  (List.range ny).flatMap (fun j =>
    (List.range nx).map (fun i =>
      { tag := j * nx + i + 1
        kind := EleKind.shellMITC4 secTag
        nodes := [nodeTag nx i j, nodeTag nx (i + 1) j,
                  nodeTag nx (i + 1) (j + 1), nodeTag nx i (j + 1)] }))

/-- Modelled from the spec: `surface.walk_edge()`, "an ordered traversal of a
mesh's perimeter nodes, used to optionally frame the boundary with line
elements" — successive pairs of adjacent perimeter nodes. -/
def walkEdgePairs (nx ny : ℕ) : List (ℕ × ℕ) :=
  ((List.range nx).map (fun i => (nodeTag nx i 0, nodeTag nx (i + 1) 0))) ++
  ((List.range ny).map (fun j => (nodeTag nx nx j, nodeTag nx nx (j + 1)))) ++
  ((List.range nx).map (fun i => (nodeTag nx (nx - i) ny, nodeTag nx (nx - i - 1) ny))) ++
  ((List.range ny).map (fun j => (nodeTag nx 0 (ny - j), nodeTag nx 0 (ny - j - 1))))

/-- The perimeter `PrismFrame` elements created by the edge-walk loop in
`create_model` (tags continue after the shell elements). -/
def edgeElements (nx ny secTag : ℕ) : List Element :=
  (walkEdgePairs nx ny).mapIdx (fun k pr =>
    { tag := nx * ny + k + 1
      kind := EleKind.prismFrame secTag
      nodes := [pr.1, pr.2] })

/-- The hardcoded flag of the script (`linear = False` in both `create_model`
and `main`). -/
def linear : Bool := false

/-- The model state built by `create_model` up to and including the two `fixZ`
calls (materials, sections, mesh, edge frame, exact-plane fixities), before the
three `fix_at` calls. -/
def baseModel : Model :=
  let cover_1 : ℚ := 1.25
  let rebar : ℚ := 1
  let total : ℚ := 6
  let core : ℚ := total - 2 * cover_1 - 2 * rebar
  let Econcr : ℚ := 3600
  let mats : List Material :=
    if linear then
      [Material.elasticIsotropic 1 Econcr 0.2, Material.elasticUniaxial 2 30000]
    else
      [Material.asdConcrete3D 1 Econcr 0.2, Material.steel01 2 60 30000 0.01]
  let mats := mats ++ [Material.plateRebar 3 2 0, Material.plateRebar 4 2 90]
  let sects : List SectionDef :=
    [SectionDef.layeredShell 1
      [(1, cover_1), (3, rebar), (4, rebar), (1, core), (4, rebar), (3, rebar), (1, cover_1)]]
  let mats := mats ++ [Material.concrete01 6 (-6) (-0.004) (-5) (-0.014)]
  let sects := sects ++ [SectionDef.fiberGJ 5 1 (6, 10, 10, -0.5, -0.5, 0.5, 0.5)]
  let nx : ℕ := 10
  let ny : ℕ := 10
  let p1 : Pt := ⟨0, 0, 0⟩
  let p2 : Pt := ⟨-33.282 * 12, 0, 49.923 * 12⟩
  let p3 : Pt := ⟨0, 0, 72.111 * 12⟩
  let p4 : Pt := ⟨33.282 * 12, 0, 22.077 * 12⟩
  let m : Model :=
    { nodes := surfaceNodes nx ny p1 p2 p3 p4
      elements := surfaceElements nx ny 1 ++ edgeElements nx ny 5
      materials := mats
      sections := sects
      fixedNodes := []
      loads := []
      cfg := {} }
  let m := fixZ m 0
  let m := fixZ m (72.111 * 12)
  m

/-- Embedding of `create_model(walk_edge=False)`. The `walk_edge` parameter is
never read by the body (the edge-walk loop runs unconditionally), mirroring the
source. After the base construction, the three tolerance-based fixities are
applied. -/
def create_model (walk_edge : Bool := false) : Model :=
  let m := baseModel
  let m := fix_at m (-33.282 * 12) 0 (49.923 * 12) 1e-1
  let m := fix_at m (33.282 * 12) 0 (22.077 * 12) 1e-1
  let m := fix_at m 0 0 (36.0555 * 12) 1
  m

/-- Outcome of one Analysis Engine invocation (`model.analyze(1)`): an integer
status, or a raised exception carrying a message. -/
inductive EngineOutcome where
  | status (code : ℤ)
  | raise (msg : String)
  deriving DecidableEq

/-- One `model.load(nid, 0.0, -p, 0.0, 0.0, 0.0, 0.0, pattern=1)` call. -/
def mkLoad (p : ℚ) (nid : ℕ) : LoadEntry :=
  { pattern := 1, node := nid, fx := 0, fy := -p, fz := 0
    mx := 0, my := 0, mz := 0 }

/-- The nodal force entries added by the double loop in `static_analysis`: for
every element, for every node referenced by that element, one load of magnitude
`p` in the negative y direction under pattern 1. -/
def eleLoads (elements : List Element) (p : ℚ) : List LoadEntry :=
  elements.flatMap (fun ele => ele.nodes.map (mkLoad p))

/-- Embedding of `static_analysis(model, p)`. The external solve
(`model.analyze(1)`) is abstracted by `analyze`; everything before it is the
script's own work: time series, load pattern, the nodal load distribution, and
the fixed numerical recipe. The body contains no exception handler, so the
engine's outcome is returned as-is. -/
def static_analysis (analyze : Model → EngineOutcome) (model : Model) (p : ℚ) :
    Model × EngineOutcome :=
  let m1 : Model := { model with cfg := { model.cfg with timeSeriesDef := some ("Linear", 1) } }
  let m2 : Model := { m1 with cfg := { m1.cfg with patternDef := some ("Plain", 1, 1) } }
  let m3 : Model := { m2 with loads := m2.loads ++ eleLoads m2.elements p }
  let m4 : Model := { m3 with cfg := { m3.cfg with
      integratorDef := some ("LoadControl", 1, 1, 1, 10)
      testDef := some ("NormDispIncr", 1/100, 30, 2)
      algorithmDef := some "Newton"
      numbererDef := some "RCM"
      constraintsDef := some "Plain"
      systemDef := some ("SparseGeneral", "-piv")
      analysisDef := some "Static" } }
  (m4, analyze m4)

/-- Python's `round(x, 3)` over exact rationals: round to the nearest multiple
of 1/1000, ties to even. -/
def rne (x : ℚ) : ℤ :=
  let f : ℤ := ⌊x⌋
  let r : ℚ := x - (f : ℚ)
  if r < 1 / 2 then f
  else if 1 / 2 < r then f + 1
  else if f % 2 = 0 then f else f + 1

/-- Rounding to three decimal places, as `round(p, 3)` in the history export. -/
def round3 (x : ℚ) : ℚ :=
  ((rne (x * 1000) : ℤ) : ℚ) / 1000

/-- Terminal condition of the driver loop in `main`. `fuelOut` is an artifact of
the fuel-based embedding of the `while` loop and is never reached with the fuel
`main` supplies (the theorems below show at most 12 passes occur). -/
inductive DriverOutcome where
  | completed
  | solverFailed (itr : ℕ) (p : ℚ)
  | solverException (itr : ℕ) (p : ℚ) (msg : String)
  | fuelOut
  deriving DecidableEq

/-- One data row of the history file: `[itr, round(p, 3), ux, uy, uz]`. -/
structure HistRow where
  itr : ℕ
  p : ℚ
  ux : ℚ
  uy : ℚ
  uz : ℚ
  deriving DecidableEq

/-- One per-step snapshot file: its step index, its file name, and its data
rows `(node, ux, uy, uz)`. -/
structure Snapshot where
  itr : ℕ
  fname : String
  rows : List (ℕ × ℚ × ℚ × ℚ)
  deriving DecidableEq

/-- Everything the driver loop produces: the pressures at which
`static_analysis` was invoked, the snapshot files written, the history rows
appended, and how the loop ended. -/
structure RunTail where
  calls : List ℚ
  snaps : List Snapshot
  history : List HistRow
  outcome : DriverOutcome
  deriving DecidableEq

/-- The pressure increment `dp = 0.45` of `main`. -/
def dp : ℚ := 0.45

/-- Embedding of the `while p <= 5.0` loop of `main`. Each pass rebuilds the
model from scratch (as `create_model()` does, with the default argument), runs
`static_analysis` with the engine outcome of this call, and either stops (on a
raised exception or a non-zero status, exporting nothing for that step) or
exports one snapshot file and one history row and continues with `itr + 1` and
`p + dp`. The structural `fuel` argument only makes the recursion structural:
the loop body runs at most 12 times before the guard fails, and `main` passes
fuel 20. -/
def runLoop (engine : ℕ → EngineOutcome) (disp : ℕ → ℕ → ℕ → ℚ) (target_nid : ℕ) :
    ℕ → ℚ → ℕ → RunTail
  | 0, _, _ => ⟨[], [], [], DriverOutcome.fuelOut⟩
  | fuel + 1, p, itr =>
    if p ≤ 5 then
      let model := create_model false
      let solved := static_analysis (fun _ => engine itr) model p
      match solved.2 with
      | EngineOutcome.raise e => ⟨[p], [], [], DriverOutcome.solverException itr p e⟩
      | EngineOutcome.status res =>
        if res ≠ 0 then
          ⟨[p], [], [], DriverOutcome.solverFailed itr p⟩
        else if linear then
          let rows := solved.1.nodes.map (fun nd =>
            (nd.tag, disp itr nd.tag 1, disp itr nd.tag 2, disp itr nd.tag 3))
          let snap : Snapshot :=
            ⟨itr, "node_displacements_" ++ toString itr ++ "_linear.csv", rows⟩
          let row : HistRow :=
            ⟨itr, round3 p, disp itr target_nid 1, disp itr target_nid 2,
             disp itr target_nid 3⟩
          let rest := runLoop engine disp target_nid fuel (p + dp) (itr + 1)
          ⟨p :: rest.calls, snap :: rest.snaps, row :: rest.history, rest.outcome⟩
        else
          let rows := solved.1.nodes.map (fun nd =>
            (nd.tag, disp itr nd.tag 1, disp itr nd.tag 2, disp itr nd.tag 3))
          let snap : Snapshot :=
            ⟨itr, "node_displacements_" ++ toString itr ++ "_nonlinear.csv", rows⟩
          let row : HistRow :=
            ⟨itr, round3 p, disp itr target_nid 1, disp itr target_nid 2,
             disp itr target_nid 3⟩
          let rest := runLoop engine disp target_nid fuel (p + dp) (itr + 1)
          ⟨p :: rest.calls, snap :: rest.snaps, row :: rest.history, rest.outcome⟩
    else ⟨[], [], [], DriverOutcome.completed⟩

/-- The observable result of one full run of `main`: the coordinates file
written at startup, the history file name, and the loop's outputs. -/
structure RunResult where
  coordsFile : List (ℕ × ℚ × ℚ × ℚ)
  historyFname : String
  calls : List ℚ
  snapshots : List Snapshot
  history : List HistRow
  outcome : DriverOutcome
  deriving DecidableEq

/-- Embedding of `main()`: write the node coordinates once, choose the history
file name (the tracked node id `target_nid` stands for the interactive input),
then run the ramp loop from `p = 0.0`, `itr = 1`. The engine raising is caught
inside the loop (the `try`/`except` of the source), so `main` always returns a
`RunResult` and never propagates the exception. -/
def main (engine : ℕ → EngineOutcome) (disp : ℕ → ℕ → ℕ → ℚ) (target_nid : ℕ) :
    RunResult :=
  let model0 := create_model false
  let coords := model0.nodes.map (fun nd => (nd.tag, nd.x, nd.y, nd.z))
  let history_fname :=
    if linear then "node_" ++ toString target_nid ++ "_disp_history_linear.csv"
    else "node_" ++ toString target_nid ++ "_disp_history_nonlinear.csv"
  let t := runLoop engine disp target_nid 20 0 1
  ⟨coords, history_fname, t.calls, t.snaps, t.history, t.outcome⟩

/-- The snapshot produced by one accepted (nonlinear-branch) step of the loop,
for use in stating what a run of successful steps emits. -/
def stepSnap (disp : ℕ → ℕ → ℕ → ℚ) (itr : ℕ) : Snapshot :=
  ⟨itr, "node_displacements_" ++ toString itr ++ "_nonlinear.csv",
   (create_model false).nodes.map (fun nd =>
     (nd.tag, disp itr nd.tag 1, disp itr nd.tag 2, disp itr nd.tag 3))⟩

/-- The history row produced by one accepted step of the loop. -/
def stepRow (disp : ℕ → ℕ → ℕ → ℚ) (target_nid itr : ℕ) (p : ℚ) : HistRow :=
  ⟨itr, round3 p, disp itr target_nid 1, disp itr target_nid 2,
   disp itr target_nid 3⟩

/-- The outputs of `m` consecutive accepted steps starting at pressure `p` and
iteration `itr`: the pressures evaluated, the snapshots written, and the
history rows appended. -/
def okSteps (disp : ℕ → ℕ → ℕ → ℚ) (target_nid : ℕ) :
    ℕ → ℚ → ℕ → List ℚ × List Snapshot × List HistRow
  | 0, _, _ => ([], [], [])
  | m + 1, p, itr =>
    let rest := okSteps disp target_nid m (p + dp) (itr + 1)
    (p :: rest.1, stepSnap disp itr :: rest.2.1,
     stepRow disp target_nid itr p :: rest.2.2)

/-- Whether an element is one of the perimeter `PrismFrame` edge members. -/
def isPrismFrame (e : Element) : Bool :=
  match e.kind with
  | EleKind.prismFrame _ => true
  | _ => false

/-- Whether a material is one of the two linear-branch (elastic) variants. -/
def isElasticMaterial (M : Material) : Bool :=
  match M with
  | Material.elasticIsotropic _ _ _ => true
  | Material.elasticUniaxial _ _ => true
  | _ => false

/-- A small two-element model (elements sharing nodes 3 and 4) used as a
concrete input for the load-distribution theorem. -/
def twoEleModel : Model :=
  { nodes := []
    elements := [⟨1, EleKind.shellMITC4 1, [1, 2, 3, 4]⟩,
                 ⟨2, EleKind.shellMITC4 1, [3, 4, 5, 6]⟩]
    materials := []
    sections := []
    fixedNodes := []
    loads := []
    cfg := {} }

section Helpers

/-- The executable `qabs` agrees with Mathlib's absolute value. -/
theorem qabs_eq_abs (a : ℚ) : qabs a = |a| := by
  unfold qabs
  rcases lt_or_ge a 0 with h | h
  · rw [if_pos h, abs_of_neg h]
  · rw [if_neg (not_lt.2 h), abs_of_nonneg h]

/-- The executable `qmax` agrees with Mathlib's `max`. -/
theorem qmax_eq_max (a b : ℚ) : qmax a b = max a b := by
  unfold qmax
  rcases le_or_lt a b with h | h
  · rw [if_pos h, max_eq_right h]
  · rw [if_neg (not_le.2 h), max_eq_left h.le]

/-- `static_analysis` does not touch the node set. -/
theorem static_analysis_fst_nodes (analyze : Model → EngineOutcome) (m : Model) (p : ℚ) :
    (static_analysis analyze m p).1.nodes = m.nodes := rfl

/-- `static_analysis` appends exactly the distributed nodal loads. -/
theorem static_analysis_fst_loads (analyze : Model → EngineOutcome) (m : Model) (p : ℚ) :
    (static_analysis analyze m p).1.loads = m.loads ++ eleLoads m.elements p := rfl

/-- The outcome of `static_analysis` is exactly what the engine returns on the
configured model — no retry, no wrapping. -/
theorem static_analysis_snd (analyze : Model → EngineOutcome) (m : Model) (p : ℚ) :
    (static_analysis analyze m p).2 = analyze (static_analysis analyze m p).1 := rfl

/-- With a constant engine outcome, `static_analysis` returns that outcome. -/
theorem static_analysis_const_snd (o : EngineOutcome) (m : Model) (p : ℚ) :
    (static_analysis (fun _ => o) m p).2 = o := rfl

/-- Round-to-nearest-even fixes integers. -/
theorem rne_intCast (n : ℤ) : rne (n : ℚ) = n := by
  unfold rne
  norm_num

/-- `round(x, 3)` is the identity on multiples of 1/1000. -/
theorem round3_eq_self (x : ℚ) (n : ℤ) (h : x * 1000 = (n : ℚ)) : round3 x = x := by
  unfold round3
  rw [h, rne_intCast, ← h]
  ring

/-- Every pressure reached by the ramp (a natural multiple of `dp = 0.45`) is
fixed by `round(·, 3)`. -/
theorem round3_dp_mul (k : ℕ) : round3 (dp * k) = dp * k := by
  refine round3_eq_self _ (450 * k) ?hq
  push_cast [dp]
  norm_num
  ring

end Helpers

section LoopLemmas

/-- When the guard `p <= 5.0` fails, the loop stops having produced nothing. -/
theorem runLoop_guard_false (engine : ℕ → EngineOutcome) (disp : ℕ → ℕ → ℕ → ℚ)
    (target_nid fuel : ℕ) (p : ℚ) (itr : ℕ) (h : ¬ p ≤ 5) :
    runLoop engine disp target_nid (fuel + 1) p itr =
      ⟨[], [], [], DriverOutcome.completed⟩ := by
  simp only [runLoop]
  rw [if_neg h]

/-- When the engine raises, the pass exports nothing and the loop stops. -/
theorem runLoop_raise (engine : ℕ → EngineOutcome) (disp : ℕ → ℕ → ℕ → ℚ)
    (target_nid fuel : ℕ) (p : ℚ) (itr : ℕ) (e : String) (h5 : p ≤ 5)
    (hs : engine itr = EngineOutcome.raise e) :
    runLoop engine disp target_nid (fuel + 1) p itr =
      ⟨[p], [], [], DriverOutcome.solverException itr p e⟩ := by
  simp only [runLoop, static_analysis_const_snd]
  rw [if_pos h5, hs]

/-- When the engine returns a non-zero status, the pass exports nothing and the
loop stops. -/
theorem runLoop_fail (engine : ℕ → EngineOutcome) (disp : ℕ → ℕ → ℕ → ℚ)
    (target_nid fuel : ℕ) (p : ℚ) (itr : ℕ) (c : ℤ) (h5 : p ≤ 5)
    (hs : engine itr = EngineOutcome.status c) (hc : c ≠ 0) :
    runLoop engine disp target_nid (fuel + 1) p itr =
      ⟨[p], [], [], DriverOutcome.solverFailed itr p⟩ := by
  simp only [runLoop, static_analysis_const_snd]
  rw [if_pos h5, hs]
  dsimp only
  rw [if_pos hc]

/-- When the engine converges (status 0), the pass exports one snapshot and one
history row and the loop continues at `p + dp`, `itr + 1`. -/
theorem runLoop_okStep (engine : ℕ → EngineOutcome) (disp : ℕ → ℕ → ℕ → ℚ)
    (target_nid fuel : ℕ) (p : ℚ) (itr : ℕ) (h5 : p ≤ 5)
    (hs : engine itr = EngineOutcome.status 0) :
    runLoop engine disp target_nid (fuel + 1) p itr =
      ⟨p :: (runLoop engine disp target_nid fuel (p + dp) (itr + 1)).calls,
       stepSnap disp itr :: (runLoop engine disp target_nid fuel (p + dp) (itr + 1)).snaps,
       stepRow disp target_nid itr p ::
         (runLoop engine disp target_nid fuel (p + dp) (itr + 1)).history,
       (runLoop engine disp target_nid fuel (p + dp) (itr + 1)).outcome⟩ := by
  simp only [runLoop, static_analysis_const_snd]
  rw [if_pos h5, hs]
  dsimp only
  rw [if_neg (fun h : (0 : ℤ) ≠ 0 => h rfl)]
  simp only [linear, Bool.false_eq_true, if_false, static_analysis_fst_nodes]
  rfl

/-- Composition: `m` converging calls starting at `(p, itr)` emit exactly the
`okSteps` outputs, then behave as the loop restarted at `(p + dp*m, itr + m)`. -/
theorem runLoop_ok_run (engine : ℕ → EngineOutcome) (disp : ℕ → ℕ → ℕ → ℚ)
    (target_nid : ℕ) :
    ∀ (m f : ℕ) (p : ℚ) (itr : ℕ),
      (∀ j, j < m → engine (itr + j) = EngineOutcome.status 0) →
      (∀ j, j < m → p + dp * j ≤ 5) →
      runLoop engine disp target_nid (f + m) p itr =
        ⟨(okSteps disp target_nid m p itr).1 ++
           (runLoop engine disp target_nid f (p + dp * m) (itr + m)).calls,
         (okSteps disp target_nid m p itr).2.1 ++
           (runLoop engine disp target_nid f (p + dp * m) (itr + m)).snaps,
         (okSteps disp target_nid m p itr).2.2 ++
           (runLoop engine disp target_nid f (p + dp * m) (itr + m)).history,
         (runLoop engine disp target_nid f (p + dp * m) (itr + m)).outcome⟩ := by
  intro m
  induction m with
  | zero =>
    intro f p itr _ _
    simp only [okSteps, List.nil_append, Nat.cast_zero, mul_zero, add_zero, Nat.add_zero]
  | succ m ih =>
    intro f p itr hok hp
    have h5 : p ≤ 5 := by simpa using hp 0 m.succ_pos
    have h0 : engine itr = EngineOutcome.status 0 := by simpa using hok 0 m.succ_pos
    have hstep := runLoop_okStep engine disp target_nid (f + m) p itr h5 h0
    have hok' : ∀ j, j < m → engine (itr + 1 + j) = EngineOutcome.status 0 := by
      intro j hj
      have := hok (j + 1) (by omega)
      rwa [show itr + (j + 1) = itr + 1 + j by omega] at this
    have hp' : ∀ j, j < m → (p + dp) + dp * j ≤ 5 := by
      intro j hj
      have := hp (j + 1) (by omega)
      push_cast at this
      linarith
    have htail := ih f (p + dp) (itr + 1) hok' hp'
    show runLoop engine disp target_nid ((f + m) + 1) p itr = _
    rw [hstep, htail]
    simp only [okSteps, List.cons_append]
    rw [show p + dp + dp * (m : ℚ) = p + dp * ((m : ℕ) + 1 : ℚ) by ring,
        show itr + 1 + m = itr + (m + 1) by omega]
    push_cast
    rfl

/-- The three output lists of `okSteps`, in closed form. -/
theorem okSteps_closed (disp : ℕ → ℕ → ℕ → ℚ) (target_nid : ℕ) :
    ∀ (m : ℕ) (p : ℚ) (itr : ℕ),
      (okSteps disp target_nid m p itr).1
          = (List.range m).map (fun (j : ℕ) => p + dp * (j : ℚ))
        ∧ (okSteps disp target_nid m p itr).2.1
          = (List.range m).map (fun (j : ℕ) => stepSnap disp (itr + j))
        ∧ (okSteps disp target_nid m p itr).2.2
          = (List.range m).map (fun (j : ℕ) =>
              stepRow disp target_nid (itr + j) (p + dp * (j : ℚ))) := by
  intro m
  induction m with
  | zero => intro p itr; simp [okSteps]
  | succ m ih =>
    intro p itr
    obtain ⟨ih1, ih2, ih3⟩ := ih (p + dp) (itr + 1)
    refine ⟨?c1, ?c2, ?c3⟩
    · simp only [okSteps, ih1, List.range_succ_eq_map, List.map_cons, List.map_map]
      refine congrArg₂ List.cons (by norm_num) ?t1
      refine List.map_congr_left (fun j _ => ?e1)
      simp only [Function.comp_apply]
      push_cast
      ring
    · simp only [okSteps, ih2, List.range_succ_eq_map, List.map_cons, List.map_map]
      refine congrArg₂ List.cons (by rw [Nat.add_zero]) ?t2
      refine List.map_congr_left (fun j _ => ?e2)
      simp only [Function.comp_apply]
      rw [show itr + 1 + j = itr + (j + 1) by omega]
    · simp only [okSteps, ih3, List.range_succ_eq_map, List.map_cons, List.map_map]
      refine congrArg₂ List.cons (by norm_num) ?t3
      refine List.map_congr_left (fun j _ => ?e3)
      simp only [Function.comp_apply]
      rw [show itr + 1 + j = itr + (j + 1) by omega,
          show p + dp + dp * (j : ℚ) = p + dp * ((j : ℕ) + 1 : ℚ) by ring]
      push_cast
      rfl

end LoopLemmas

section MeshBounds

/-- A grid parameter `i/nx` with `i ≤ nx` lies in the unit interval (for
`nx = 0` the quotient is 0 by convention). -/
theorem gridParam_mem_unit (i nx : ℕ) (h : i ≤ nx) :
    0 ≤ (i : ℚ) / (nx : ℚ) ∧ (i : ℚ) / (nx : ℚ) ≤ 1 := by
  rcases Nat.eq_zero_or_pos nx with h0 | hpos
  · subst h0; norm_num
  · constructor
    · positivity
    · rw [div_le_one (by exact_mod_cast hpos)]
      exact_mod_cast h

/-- Bilinear interpolation stays below any common upper bound of the corners. -/
theorem bilin_le (c1 c2 c3 c4 u v hi : ℚ) (hu0 : 0 ≤ u) (hu1 : u ≤ 1)
    (hv0 : 0 ≤ v) (hv1 : v ≤ 1)
    (h1 : c1 ≤ hi) (h2 : c2 ≤ hi) (h3 : c3 ≤ hi) (h4 : c4 ≤ hi) :
    bilin c1 c2 c3 c4 u v ≤ hi := by
  unfold bilin
  nlinarith [mul_nonneg (mul_nonneg (sub_nonneg.2 hu1) (sub_nonneg.2 hv1)) (sub_nonneg.2 h1),
             mul_nonneg (mul_nonneg hu0 (sub_nonneg.2 hv1)) (sub_nonneg.2 h2),
             mul_nonneg (mul_nonneg hu0 hv0) (sub_nonneg.2 h3),
             mul_nonneg (mul_nonneg (sub_nonneg.2 hu1) hv0) (sub_nonneg.2 h4)]

/-- Bilinear interpolation stays above any common lower bound of the corners. -/
theorem le_bilin (c1 c2 c3 c4 u v lo : ℚ) (hu0 : 0 ≤ u) (hu1 : u ≤ 1)
    (hv0 : 0 ≤ v) (hv1 : v ≤ 1)
    (h1 : lo ≤ c1) (h2 : lo ≤ c2) (h3 : lo ≤ c3) (h4 : lo ≤ c4) :
    lo ≤ bilin c1 c2 c3 c4 u v := by
  unfold bilin
  nlinarith [mul_nonneg (mul_nonneg (sub_nonneg.2 hu1) (sub_nonneg.2 hv1)) (sub_nonneg.2 h1),
             mul_nonneg (mul_nonneg hu0 (sub_nonneg.2 hv1)) (sub_nonneg.2 h2),
             mul_nonneg (mul_nonneg hu0 hv0) (sub_nonneg.2 h3),
             mul_nonneg (mul_nonneg (sub_nonneg.2 hu1) hv0) (sub_nonneg.2 h4)]

/-- Every node of the structured mesh is a bilinear blend of the corners at
grid parameters inside the unit square. -/
theorem mem_surfaceNodes (nx ny : ℕ) (p1 p2 p3 p4 : Pt) (nd : Node3)
    (h : nd ∈ surfaceNodes nx ny p1 p2 p3 p4) :
    ∃ i j : ℕ, i ≤ nx ∧ j ≤ ny ∧
      nd.x = bilin p1.x p2.x p3.x p4.x ((i : ℚ) / (nx : ℚ)) ((j : ℚ) / (ny : ℚ)) ∧
      nd.y = bilin p1.y p2.y p3.y p4.y ((i : ℚ) / (nx : ℚ)) ((j : ℚ) / (ny : ℚ)) ∧
      nd.z = bilin p1.z p2.z p3.z p4.z ((i : ℚ) / (nx : ℚ)) ((j : ℚ) / (ny : ℚ)) := by
  unfold surfaceNodes at h
  simp only [List.mem_flatMap, List.mem_map, List.mem_range] at h
  obtain ⟨j, hj, i, hi, hnd⟩ := h
  refine ⟨i, j, by omega, by omega, ?hx, ?hy, ?hz⟩
  · rw [← hnd]
  · rw [← hnd]
  · rw [← hnd]

/-- The mesh nodes of the script's model (before any fixity is applied). -/
theorem baseModel_nodes :
    baseModel.nodes = surfaceNodes 10 10 ⟨0, 0, 0⟩ ⟨-33.282 * 12, 0, 49.923 * 12⟩
      ⟨0, 0, 72.111 * 12⟩ ⟨33.282 * 12, 0, 22.077 * 12⟩ := rfl

/-- Concrete coordinate bounds for every node of the generated mesh: `x` lies
in [-400, 400], `y` is exactly 0, `z` lies in [0, 866]. -/
theorem baseModel_coord_bounds (nd : Node3) (h : nd ∈ baseModel.nodes) :
    -400 ≤ nd.x ∧ nd.x ≤ 400 ∧ nd.y = 0 ∧ 0 ≤ nd.z ∧ nd.z ≤ 866 := by
  rw [baseModel_nodes] at h
  obtain ⟨i, j, hi, hj, hx, hy, hz⟩ := mem_surfaceNodes _ _ _ _ _ _ _ h
  obtain ⟨hu0, hu1⟩ := gridParam_mem_unit i 10 hi
  obtain ⟨hv0, hv1⟩ := gridParam_mem_unit j 10 hj
  refine ⟨?bx1, ?bx2, ?byy, ?bz1, ?bz2⟩
  · rw [hx]
    exact le_bilin _ _ _ _ _ _ _ hu0 hu1 hv0 hv1 (by norm_num) (by norm_num)
      (by norm_num) (by norm_num)
  · rw [hx]
    exact bilin_le _ _ _ _ _ _ _ hu0 hu1 hv0 hv1 (by norm_num) (by norm_num)
      (by norm_num) (by norm_num)
  · rw [hy]
    unfold bilin
    ring
  · rw [hz]
    exact le_bilin _ _ _ _ _ _ _ hu0 hu1 hv0 hv1 (by norm_num) (by norm_num)
      (by norm_num) (by norm_num)
  · rw [hz]
    exact bilin_le _ _ _ _ _ _ _ hu0 hu1 hv0 hv1 (by norm_num) (by norm_num)
      (by norm_num) (by norm_num)

end MeshBounds

section Claims78

/-- C7: `create_model` is deterministic — two calls with identical parameters
yield identical models: same node coordinates, same element connectivity, and
the same fixed-DOF sets. -/
theorem create_model_deterministic (w1 w2 : Bool) (h : w1 = w2) :
    create_model w1 = create_model w2
      ∧ (create_model w1).nodes = (create_model w2).nodes
      ∧ (create_model w1).elements = (create_model w2).elements
      ∧ (create_model w1).fixedNodes = (create_model w2).fixedNodes := by
  subst h
  exact ⟨rfl, rfl, rfl, rfl⟩

/-- C7 witness: the determinism theorem applied at the default parameter. -/
theorem create_model_deterministic_witness :
    create_model false = create_model false
      ∧ (create_model false).nodes = (create_model false).nodes
      ∧ (create_model false).elements = (create_model false).elements
      ∧ (create_model false).fixedNodes = (create_model false).fixedNodes :=
  create_model_deterministic false false rfl

/-- C8: the `walk_edge` parameter has no effect — the model is identical for
both values, and the 40 perimeter `PrismFrame` edge elements are present
unconditionally. -/
theorem walk_edge_no_effect :
    (∀ w1 w2 : Bool, create_model w1 = create_model w2)
      ∧ ((create_model false).elements.filter isPrismFrame).length = 40
      ∧ ((create_model true).elements.filter isPrismFrame).length = 40 := by
  refine ⟨fun w1 w2 => rfl, ?c40f, ?c40t⟩
  · decide
  · decide

end Claims78

section Claims23

/-- A tolerance-based fixity target that matches zero nodes of the generated
mesh: the target (1000000, 0, 0) with the script's tolerance 0.1 is far from
every mesh node, whose x coordinates lie in [-400, 400]. -/
theorem far_target_matches_nothing :
    baseModel.nodes.filter (nodeMatches 1000000 0 0 1e-1) = [] := by
  rw [List.filter_eq_nil_iff]
  intro nd hnd
  obtain ⟨hx1, hx2, _, _, _⟩ := baseModel_coord_bounds nd hnd
  unfold nodeMatches isclose
  simp only [Bool.and_eq_true, decide_eq_true_eq, qabs_eq_abs, qmax_eq_max]
  intro hall
  obtain ⟨⟨hxc, _⟩, _⟩ := hall
  have habs : |nd.x| ≤ 400 := abs_le.2 ⟨hx1, hx2⟩
  have habs6 : |(1000000 : ℚ)| = 1000000 := by norm_num
  have hm : max |nd.x| |(1000000 : ℚ)| = 1000000 := by
    rw [habs6]
    exact max_eq_right (by linarith)
  rw [hm] at hxc
  have hrel : max (relTolDef * 1000000) 1e-1 = (1e-1 : ℚ) := by
    rw [max_eq_right]
    norm_num [relTolDef]
  rw [hrel] at hxc
  have := (abs_le.1 hxc).1
  linarith

/-- C2 counterexample: at the concrete zero-match target (1000000, 0, 0) with
tolerance 0.1, constraint application on the generated mesh completes without
signaling any GeometryError and leaves the model unchanged — refuting the
claim that `create_model` fails whenever a tolerance-based fixity target
matches zero nodes. -/
theorem fix_at_zero_match_no_error :
    baseModel.nodes.filter (nodeMatches 1000000 0 0 1e-1) = []
      ∧ fix_atE baseModel 1000000 0 0 1e-1 = Except.ok baseModel
      ∧ fix_at_claimed baseModel 1000000 0 0 1e-1 ≠ Except.ok baseModel := by
  have hf := far_target_matches_nothing
  refine ⟨hf, ?hok, ?hcl⟩
  · unfold fix_atE fix_at
    rw [hf]
    simp
  · unfold fix_at_claimed
    rw [if_pos hf]
    intro hcontra
    exact Except.noConfusion hcontra

/-- Helper: a zero-match tolerance search leaves the model unchanged. -/
theorem fix_at_nil_eq (m : Model) (x0 y0 z0 tol : ℚ)
    (h : m.nodes.filter (nodeMatches x0 y0 z0 tol) = []) :
    fix_at m x0 y0 z0 tol = m := by
  unfold fix_at
  rw [h]
  simp

/-- C2 amended: when a tolerance-based fixity target matches zero nodes,
`fix_at` completes silently — no `GeometryError` is signaled and the model is
returned unchanged. -/
theorem fix_at_zero_match_silent (m : Model) (x0 y0 z0 tol : ℚ)
    (h : m.nodes.filter (nodeMatches x0 y0 z0 tol) = []) :
    fix_atE m x0 y0 z0 tol = Except.ok m ∧ fix_at m x0 y0 z0 tol = m := by
  have hfix := fix_at_nil_eq m x0 y0 z0 tol h
  exact ⟨by unfold fix_atE; rw [hfix], hfix⟩

/-- C2 amended witness: the silent-no-op theorem applied at the generated mesh
and the concrete zero-match target (1000000, 0, 0) with tolerance 0.1. -/
theorem fix_at_zero_match_silent_witness :
    fix_atE baseModel 1000000 0 0 1e-1 = Except.ok baseModel
      ∧ fix_at baseModel 1000000 0 0 1e-1 = baseModel :=
  fix_at_zero_match_silent baseModel 1000000 0 0 1e-1 far_target_matches_nothing

/-- With the relative-tolerance term dominated by `tol`, `isclose` is exactly
the absolute-difference test. -/
theorem isclose_eq_abs_test (a b tol : ℚ)
    (h : relTolDef * qmax (qabs a) (qabs b) ≤ tol) :
    isclose a b tol = decide (|a - b| ≤ tol) := by
  unfold isclose
  rw [decide_eq_decide]
  rw [qabs_eq_abs, qmax_eq_max, max_eq_right h]

/-- C3: whenever the relative-tolerance term of `math.isclose` is dominated by
`tol` for every node (true for the script's model, whose coordinates and
targets are bounded by 400 and 866 while `rel_tol = 1e-9`), the nodes that
`fix_at` fixes — in all 6 DOF — are exactly those whose three coordinates are
each within `tol` (absolute difference) of the target, per axis independently;
and when zero nodes match, the call completes silently and fixes nothing. -/
theorem fix_at_matches_abs_tol (m : Model) (x0 y0 z0 tol : ℚ)
    (hb : ∀ nd ∈ m.nodes,
        relTolDef * qmax (qabs nd.x) (qabs x0) ≤ tol ∧
        relTolDef * qmax (qabs nd.y) (qabs y0) ≤ tol ∧
        relTolDef * qmax (qabs nd.z) (qabs z0) ≤ tol) :
    (fix_at m x0 y0 z0 tol).fixedNodes
        = m.fixedNodes ++ (m.nodes.filter (fun nd =>
            decide (|nd.x - x0| ≤ tol ∧ |nd.y - y0| ≤ tol ∧ |nd.z - z0| ≤ tol))).map
            (fun nd => nd.tag)
      ∧ (m.nodes.filter (fun nd =>
            decide (|nd.x - x0| ≤ tol ∧ |nd.y - y0| ≤ tol ∧ |nd.z - z0| ≤ tol)) = [] →
          fix_atE m x0 y0 z0 tol = Except.ok m) := by
  have hcong : ∀ nd ∈ m.nodes, nodeMatches x0 y0 z0 tol nd
      = decide (|nd.x - x0| ≤ tol ∧ |nd.y - y0| ≤ tol ∧ |nd.z - z0| ≤ tol) := by
    intro nd hnd
    obtain ⟨hbx, hby, hbz⟩ := hb nd hnd
    unfold nodeMatches
    rw [isclose_eq_abs_test _ _ _ hbx, isclose_eq_abs_test _ _ _ hby,
        isclose_eq_abs_test _ _ _ hbz]
    simp [Bool.and_assoc]
  have hfe : m.nodes.filter (nodeMatches x0 y0 z0 tol)
      = m.nodes.filter (fun nd =>
          decide (|nd.x - x0| ≤ tol ∧ |nd.y - y0| ≤ tol ∧ |nd.z - z0| ≤ tol)) :=
    List.filter_congr hcong
  constructor
  · unfold fix_at
    rw [hfe]
  · intro hnil
    have hfix := fix_at_nil_eq m x0 y0 z0 tol (by rw [hfe, hnil])
    unfold fix_atE
    rw [hfix]

/-- C3 witness: the matching characterization applied at the generated mesh
and the first tolerance fixity call of `create_model`,
`fix_at(-33.282*12, 0.0, 49.923*12, tol=1e-1)`. -/
theorem fix_at_matches_abs_tol_witness :
    (fix_at baseModel (-33.282 * 12) 0 (49.923 * 12) 1e-1).fixedNodes
        = baseModel.fixedNodes ++ (baseModel.nodes.filter (fun nd =>
            decide (|nd.x - (-33.282 * 12)| ≤ 1e-1 ∧ |nd.y - 0| ≤ 1e-1 ∧
              |nd.z - 49.923 * 12| ≤ 1e-1))).map (fun nd => nd.tag)
      ∧ (baseModel.nodes.filter (fun nd =>
            decide (|nd.x - (-33.282 * 12)| ≤ 1e-1 ∧ |nd.y - 0| ≤ 1e-1 ∧
              |nd.z - 49.923 * 12| ≤ 1e-1)) = [] →
          fix_atE baseModel (-33.282 * 12) 0 (49.923 * 12) 1e-1 = Except.ok baseModel) := by
  refine fix_at_matches_abs_tol baseModel (-33.282 * 12) 0 (49.923 * 12) 1e-1 ?hb
  intro nd hnd
  obtain ⟨hx1, hx2, hy0, hz1, hz2⟩ := baseModel_coord_bounds nd hnd
  simp only [qabs_eq_abs, qmax_eq_max]
  have habsx : |nd.x| ≤ 400 := abs_le.2 ⟨hx1, hx2⟩
  have habsz : |nd.z| ≤ 866 := abs_le.2 ⟨by linarith, hz2⟩
  have hrelpos : (0 : ℚ) ≤ relTolDef := by norm_num [relTolDef]
  refine ⟨?wx, ?wy, ?wz⟩
  · have h1 : max |nd.x| |(-33.282 * 12 : ℚ)| ≤ 400 :=
      max_le habsx (by rw [abs_le]; constructor <;> norm_num)
    calc relTolDef * max |nd.x| |(-33.282 * 12 : ℚ)|
        ≤ relTolDef * 400 := mul_le_mul_of_nonneg_left h1 hrelpos
      _ ≤ 1e-1 := by norm_num [relTolDef]
  · rw [hy0]
    norm_num [relTolDef]
  · have h1 : max |nd.z| |(49.923 * 12 : ℚ)| ≤ 866 :=
      max_le habsz (by rw [abs_le]; constructor <;> norm_num)
    calc relTolDef * max |nd.z| |(49.923 * 12 : ℚ)|
        ≤ relTolDef * 866 := mul_le_mul_of_nonneg_left h1 hrelpos
      _ ≤ 1e-1 := by norm_num [relTolDef]

end Claims23

section Claim4

/-- Helper: filtering the loads made from a node list by target node commutes
with building them. -/
theorem filter_mkLoad (nodes : List ℕ) (p : ℚ) (n : ℕ) :
    ((nodes.map (mkLoad p)).filter (fun L => L.node == n))
      = (nodes.filter (fun x => x == n)).map (mkLoad p) := by
  induction nodes with
  | nil => rfl
  | cons a l ih =>
    simp only [List.map_cons, List.filter_cons]
    rcases hb : (a == n) with _ | _ <;> simp [mkLoad, hb, ih]

/-- Helper: in a duplicate-free node list, the references to `n` number one if
`n` occurs and zero otherwise. -/
theorem filter_beq_length_nodup (l : List ℕ) (n : ℕ) (h : l.Nodup) :
    (l.filter (fun x => x == n)).length = if l.contains n then 1 else 0 := by
  induction l with
  | nil => rfl
  | cons a t ih =>
    rw [List.nodup_cons] at h
    obtain ⟨ha, ht⟩ := h
    simp only [List.filter_cons, List.contains_cons]
    by_cases hc : a = n
    · subst hc
      have htf : t.filter (fun x => x == a) = [] := by
        rw [List.filter_eq_nil_iff]
        intro x hx
        simp only [beq_iff_eq]
        intro hxa
        exact ha (hxa ▸ hx)
      simp [htf]
    · have hb : (a == n) = false := by simp [hc]
      have hb' : (n == a) = false := by
        simp only [beq_eq_false_iff_ne]
        exact fun h => hc h.symm
      rw [hb, hb']
      simp only [Bool.false_or]
      exact ih ht

/-- Helper: number of load entries aimed at node `n` equals the number of
elements referencing `n`, provided each element lists its nodes without
duplicates. -/
theorem eleLoads_count (elements : List Element) (p : ℚ) (n : ℕ)
    (hnd : ∀ e ∈ elements, e.nodes.Nodup) :
    ((eleLoads elements p).filter (fun L => L.node == n)).length
      = (elements.filter (fun e => e.nodes.contains n)).length := by
  induction elements with
  | nil => rfl
  | cons e es ih =>
    have hcons : eleLoads (e :: es) p = e.nodes.map (mkLoad p) ++ eleLoads es p := by
      simp [eleLoads]
    rw [hcons, List.filter_append, List.length_append, filter_mkLoad, List.length_map,
        filter_beq_length_nodup _ _ (hnd e (List.mem_cons_self e es)), List.filter_cons]
    have htail := ih (fun e' he' => hnd e' (List.mem_cons_of_mem _ he'))
    by_cases hc : e.nodes.contains n
    · rw [if_pos hc, if_pos hc, List.length_cons, htail]
      omega
    · rw [if_neg hc, if_neg (by simpa using hc), htail]
      omega

/-- Helper: a list of load entries with constant `fy` sums to length times it. -/
theorem sum_fy_const (l : List LoadEntry) (c : ℚ) (h : ∀ L ∈ l, L.fy = c) :
    (l.map (fun L => L.fy)).sum = (l.length : ℚ) * c := by
  induction l with
  | nil => simp
  | cons a t ih =>
    simp only [List.map_cons, List.sum_cons, List.length_cons,
      h a (List.mem_cons_self a t), ih (fun L hL => h L (List.mem_cons_of_mem _ hL))]
    push_cast
    ring

/-- C4: `static_analysis` adds, for every element and every node that element
references, exactly one nodal force of magnitude `p` in the negative y
direction (all other components zero) to load pattern 1; consequently a node
referenced by `k` elements receives total applied y-force `-k*p`. -/
theorem static_analysis_load_distribution (analyze : Model → EngineOutcome)
    (m : Model) (p : ℚ) (n : ℕ)
    (hnd : ∀ e ∈ m.elements, e.nodes.Nodup) :
    (static_analysis analyze m p).1.loads = m.loads ++ eleLoads m.elements p
      ∧ eleLoads m.elements p
          = m.elements.flatMap (fun ele => ele.nodes.map (mkLoad p))
      ∧ (∀ L ∈ eleLoads m.elements p, L.pattern = 1 ∧ L.fx = 0 ∧ L.fy = -p
          ∧ L.fz = 0 ∧ L.mx = 0 ∧ L.my = 0 ∧ L.mz = 0)
      ∧ ((eleLoads m.elements p).filter (fun L => L.node == n)).length
          = (m.elements.filter (fun e => e.nodes.contains n)).length
      ∧ (((eleLoads m.elements p).filter (fun L => L.node == n)).map
            (fun L => L.fy)).sum
          = -(((m.elements.filter (fun e => e.nodes.contains n)).length : ℚ) * p) := by
  have hforms : ∀ L ∈ eleLoads m.elements p, L.pattern = 1 ∧ L.fx = 0 ∧ L.fy = -p
      ∧ L.fz = 0 ∧ L.mx = 0 ∧ L.my = 0 ∧ L.mz = 0 := by
    intro L hL
    unfold eleLoads at hL
    rw [List.mem_flatMap] at hL
    obtain ⟨ele, _, hL⟩ := hL
    rw [List.mem_map] at hL
    obtain ⟨nid, _, hL⟩ := hL
    rw [← hL]
    exact ⟨rfl, rfl, rfl, rfl, rfl, rfl, rfl⟩
  refine ⟨rfl, rfl, hforms, eleLoads_count m.elements p n hnd, ?hsum⟩
  have hconst : ∀ L ∈ (eleLoads m.elements p).filter (fun L => L.node == n),
      L.fy = -p := by
    intro L hL
    exact (hforms L (List.mem_of_mem_filter hL)).2.2.1
  rw [sum_fy_const _ _ hconst, eleLoads_count m.elements p n hnd]
  ring

/-- C4 witness: the load-distribution theorem applied to the concrete
two-element model sharing nodes 3 and 4, with `p = 2` and tracked node `n = 3`. -/
theorem static_analysis_load_distribution_witness :
    ((eleLoads twoEleModel.elements 2).filter (fun L => L.node == 3)).length
        = (twoEleModel.elements.filter (fun e => e.nodes.contains 3)).length
      ∧ (((eleLoads twoEleModel.elements 2).filter (fun L => L.node == 3)).map
          (fun L => L.fy)).sum
        = -(((twoEleModel.elements.filter
              (fun e => e.nodes.contains 3)).length : ℚ) * 2) :=
  let h := static_analysis_load_distribution (fun _ => EngineOutcome.status 0)
    twoEleModel 2 3 (by decide)
  ⟨h.2.2.2.1, h.2.2.2.2⟩

end Claim4

section Claim1

/-- C1: with an engine that always converges, `main` evaluates exactly the
pressures 0.0, 0.45, …, 4.95 (each obtained by repeatedly adding dp = 0.45 to
0.0 and each at most 5.0), executes exactly 12 steps, writes exactly 12
snapshot files and 12 history rows, and the history's iteration and pressure
columns are strictly increasing. -/
theorem main_full_ramp (engine : ℕ → EngineOutcome) (disp : ℕ → ℕ → ℕ → ℚ)
    (target_nid : ℕ) (h : ∀ k, engine k = EngineOutcome.status 0) :
    (main engine disp target_nid).calls
        = [0, 0.45, 0.9, 1.35, 1.8, 2.25, 2.7, 3.15, 3.6, 4.05, 4.5, 4.95]
      ∧ (∀ q ∈ (main engine disp target_nid).calls, q ≤ 5)
      ∧ (main engine disp target_nid).snapshots.length = 12
      ∧ (main engine disp target_nid).history.length = 12
      ∧ (main engine disp target_nid).history.map (fun r => r.itr)
          = [1, 2, 3, 4, 5, 6, 7, 8, 9, 10, 11, 12]
      ∧ (main engine disp target_nid).history.map (fun r => r.p)
          = [0, 0.45, 0.9, 1.35, 1.8, 2.25, 2.7, 3.15, 3.6, 4.05, 4.5, 4.95]
      ∧ List.Chain' (fun a b => a < b)
          ((main engine disp target_nid).history.map (fun r => r.itr))
      ∧ List.Chain' (fun a b => a < b)
          ((main engine disp target_nid).history.map (fun r => r.p))
      ∧ (main engine disp target_nid).outcome = DriverOutcome.completed := by
  have hok : ∀ j, j < 12 → engine (1 + j) = EngineOutcome.status 0 := fun j _ => h (1 + j)
  have hp : ∀ j : ℕ, j < 12 → (0 : ℚ) + dp * (j : ℚ) ≤ 5 := by
    intro j hj
    interval_cases j <;> norm_num [dp]
  have hcomp := runLoop_ok_run engine disp target_nid 12 8 0 1 hok hp
  have hguard : ¬ ((0 : ℚ) + dp * ((12 : ℕ) : ℚ) ≤ 5) := by norm_num [dp]
  have htail : runLoop engine disp target_nid 8 (0 + dp * ((12 : ℕ) : ℚ)) (1 + 12)
      = ⟨[], [], [], DriverOutcome.completed⟩ :=
    runLoop_guard_false engine disp target_nid 7 _ _ hguard
  rw [htail] at hcomp
  simp only [List.append_nil] at hcomp
  have hcomp20 : runLoop engine disp target_nid 20 0 1
      = ⟨(okSteps disp target_nid 12 0 1).1, (okSteps disp target_nid 12 0 1).2.1,
         (okSteps disp target_nid 12 0 1).2.2, DriverOutcome.completed⟩ := by
    rw [show (20 : ℕ) = 8 + 12 from rfl]
    exact hcomp
  obtain ⟨hc1, hc2, hc3⟩ := okSteps_closed disp target_nid 12 0 1
  have hrange : List.range 12 = [0, 1, 2, 3, 4, 5, 6, 7, 8, 9, 10, 11] := rfl
  have hcalls : (okSteps disp target_nid 12 0 1).1
      = [0, 0.45, 0.9, 1.35, 1.8, 2.25, 2.7, 3.15, 3.6, 4.05, 4.5, 4.95] := by
    rw [hc1, hrange]
    simp only [List.map_cons, List.map_nil]
    norm_num [dp]
  have hitrs : (okSteps disp target_nid 12 0 1).2.2.map (fun r => r.itr)
      = [1, 2, 3, 4, 5, 6, 7, 8, 9, 10, 11, 12] := by
    rw [hc3, hrange]
    simp only [List.map_cons, List.map_nil, stepRow]
  have hps : (okSteps disp target_nid 12 0 1).2.2.map (fun r => r.p)
      = [0, 0.45, 0.9, 1.35, 1.8, 2.25, 2.7, 3.15, 3.6, 4.05, 4.5, 4.95] := by
    rw [hc3, hrange]
    simp only [List.map_cons, List.map_nil, stepRow]
    have hr : ∀ j : ℕ, round3 (0 + dp * (j : ℚ)) = 0 + dp * (j : ℚ) := by
      intro j
      rw [zero_add, round3_dp_mul]
    simp only [hr]
    norm_num [dp]
  have hslen : (okSteps disp target_nid 12 0 1).2.1.length = 12 := by
    rw [hc2, List.length_map, List.length_range]
  have hhlen : (okSteps disp target_nid 12 0 1).2.2.length = 12 := by
    rw [hc3, List.length_map, List.length_range]
  refine ⟨?c1, ?c2, ?c3, ?c4, ?c5, ?c6, ?c7, ?c8, ?c9⟩
  · show (runLoop engine disp target_nid 20 0 1).calls = _
    rw [hcomp20]
    exact hcalls
  · show ∀ q ∈ (runLoop engine disp target_nid 20 0 1).calls, q ≤ 5
    rw [hcomp20]
    intro q hq
    rw [show (⟨(okSteps disp target_nid 12 0 1).1, (okSteps disp target_nid 12 0 1).2.1,
         (okSteps disp target_nid 12 0 1).2.2, DriverOutcome.completed⟩ : RunTail).calls
        = (okSteps disp target_nid 12 0 1).1 from rfl, hcalls] at hq
    simp only [List.mem_cons, List.not_mem_nil, or_false] at hq
    rcases hq with rfl | rfl | rfl | rfl | rfl | rfl | rfl | rfl | rfl | rfl | rfl | rfl <;>
      norm_num
  · show (runLoop engine disp target_nid 20 0 1).snaps.length = 12
    rw [hcomp20]
    exact hslen
  · show (runLoop engine disp target_nid 20 0 1).history.length = 12
    rw [hcomp20]
    exact hhlen
  · show (runLoop engine disp target_nid 20 0 1).history.map (fun r => r.itr) = _
    rw [hcomp20]
    exact hitrs
  · show (runLoop engine disp target_nid 20 0 1).history.map (fun r => r.p) = _
    rw [hcomp20]
    exact hps
  · show List.Chain' _ ((runLoop engine disp target_nid 20 0 1).history.map (fun r => r.itr))
    rw [hcomp20]
    dsimp only
    rw [hitrs]
    simp only [List.chain'_cons, List.chain'_singleton, and_true]
    omega
  · show List.Chain' _ ((runLoop engine disp target_nid 20 0 1).history.map (fun r => r.p))
    rw [hcomp20]
    dsimp only
    rw [hps]
    simp only [List.chain'_cons, List.chain'_singleton, and_true]
    norm_num
  · show (runLoop engine disp target_nid 20 0 1).outcome = _
    rw [hcomp20]

/-- C1 witness: the full-ramp theorem applied to the always-converging stub
engine, a zero displacement query, and tracked node 1. -/
theorem main_full_ramp_witness :
    (main (fun _ => EngineOutcome.status 0) (fun _ _ _ => 0) 1).calls
        = [0, 0.45, 0.9, 1.35, 1.8, 2.25, 2.7, 3.15, 3.6, 4.05, 4.5, 4.95]
      ∧ (main (fun _ => EngineOutcome.status 0) (fun _ _ _ => 0) 1).snapshots.length = 12
      ∧ (main (fun _ => EngineOutcome.status 0) (fun _ _ _ => 0) 1).history.length = 12
      ∧ (main (fun _ => EngineOutcome.status 0) (fun _ _ _ => 0) 1).outcome
          = DriverOutcome.completed :=
  let h := main_full_ramp (fun _ => EngineOutcome.status 0) (fun _ _ _ => 0) 1
    (fun _ => rfl)
  ⟨h.1, h.2.2.1, h.2.2.2.1, h.2.2.2.2.2.2.2.2⟩

end Claim1

section Claims56

/-- Helper: a ramp that runs `k - 1` converging calls and then stops at call
`k` (with `stop` describing what the k-th pass produces) yields `k - 1`
snapshots and history rows and the k-th pass's terminal outcome. -/
theorem main_stops_at (engine : ℕ → EngineOutcome) (disp : ℕ → ℕ → ℕ → ℚ)
    (target_nid : ℕ) (k : ℕ) (h1 : 1 ≤ k) (h12 : k ≤ 12)
    (hok : ∀ j, 1 ≤ j → j < k → engine j = EngineOutcome.status 0)
    (tailOut : RunTail)
    (hstop : runLoop engine disp target_nid (20 - k + 1)
        (0 + dp * ((k - 1 : ℕ) : ℚ)) k = tailOut) :
    (main engine disp target_nid).snapshots.length = (k - 1) + tailOut.snaps.length
      ∧ (main engine disp target_nid).history.length = (k - 1) + tailOut.history.length
      ∧ (main engine disp target_nid).outcome = tailOut.outcome := by
  have hok' : ∀ j, j < k - 1 → engine (1 + j) = EngineOutcome.status 0 := by
    intro j hj
    exact hok (1 + j) (by omega) (by omega)
  have hp' : ∀ j : ℕ, j < k - 1 → (0 : ℚ) + dp * (j : ℚ) ≤ 5 := by
    intro j hj
    have hj10 : (j : ℚ) ≤ 10 := by exact_mod_cast (by omega : j ≤ 10)
    have h45 : dp * (j : ℚ) ≤ dp * 10 := mul_le_mul_of_nonneg_left hj10 (by norm_num [dp])
    simp only [dp] at h45 ⊢
    linarith
  have hcomp := runLoop_ok_run engine disp target_nid (k - 1) (21 - k) 0 1 hok' hp'
  have hfuel : (21 - k) + (k - 1) = 20 := by omega
  rw [hfuel] at hcomp
  have hit : 1 + (k - 1) = k := by omega
  have hfuel2 : 21 - k = 20 - k + 1 := by omega
  rw [hit, hfuel2, hstop] at hcomp
  obtain ⟨hc1, hc2, hc3⟩ := okSteps_closed disp target_nid (k - 1) 0 1
  refine ⟨?s1, ?s2, ?s3⟩
  · show (runLoop engine disp target_nid 20 0 1).snaps.length = _
    rw [hcomp]
    dsimp only
    rw [List.length_append, hc2, List.length_map, List.length_range]
  · show (runLoop engine disp target_nid 20 0 1).history.length = _
    rw [hcomp]
    dsimp only
    rw [List.length_append, hc3, List.length_map, List.length_range]
  · show (runLoop engine disp target_nid 20 0 1).outcome = _
    rw [hcomp]

/-- Helper: the pressure of the k-th call, `0 + dp*(k-1)`, stays within the
guard for `k ≤ 12`. -/
theorem kth_pressure_le (k : ℕ) (h1 : 1 ≤ k) (h12 : k ≤ 12) :
    (0 : ℚ) + dp * ((k - 1 : ℕ) : ℚ) ≤ 5 := by
  have hj11 : ((k - 1 : ℕ) : ℚ) ≤ 11 := by exact_mod_cast (by omega : k - 1 ≤ 11)
  have h45 : dp * ((k - 1 : ℕ) : ℚ) ≤ dp * 11 :=
    mul_le_mul_of_nonneg_left hj11 (by norm_num [dp])
  simp only [dp] at h45 ⊢
  linarith

/-- Helper: cast identity for the k-th pressure. -/
theorem kth_pressure_eq (k : ℕ) (h1 : 1 ≤ k) :
    (0 : ℚ) + dp * ((k - 1 : ℕ) : ℚ) = dp * ((k : ℚ) - 1) := by
  rw [Nat.cast_sub h1]
  push_cast
  ring

/-- C5: if the engine fails to converge (non-zero status) at the k-th call
after converging before it, the run stops there with the failing iteration and
pressure recorded, without raising: exactly `k - 1` snapshot files and `k - 1`
history rows exist, and nothing is exported for the failing step. -/
theorem main_solver_failed (engine : ℕ → EngineOutcome) (disp : ℕ → ℕ → ℕ → ℚ)
    (target_nid : ℕ) (k : ℕ) (c : ℤ) (h1 : 1 ≤ k) (h12 : k ≤ 12)
    (hok : ∀ j, 1 ≤ j → j < k → engine j = EngineOutcome.status 0)
    (hk : engine k = EngineOutcome.status c) (hc : c ≠ 0) :
    (main engine disp target_nid).snapshots.length = k - 1
      ∧ (main engine disp target_nid).history.length = k - 1
      ∧ (main engine disp target_nid).outcome
          = DriverOutcome.solverFailed k (dp * ((k : ℚ) - 1)) := by
  have hstop := runLoop_fail engine disp target_nid (20 - k)
    (0 + dp * ((k - 1 : ℕ) : ℚ)) k c (kth_pressure_le k h1 h12) hk hc
  have hmain := main_stops_at engine disp target_nid k h1 h12 hok _ hstop
  refine ⟨by rw [hmain.1]; rfl, by rw [hmain.2.1]; rfl, ?out⟩
  rw [hmain.2.2]
  dsimp only
  rw [kth_pressure_eq k h1]

/-- C5 witness: a stub engine converging twice and returning status 1 at the
3rd call yields exactly 2 snapshot files and 2 history rows, outcome
`solverFailed` at iteration 3, pressure 0.9. -/
theorem main_solver_failed_witness :
    (main (fun j => if j = 3 then EngineOutcome.status 1 else EngineOutcome.status 0)
        (fun _ _ _ => 0) 1).snapshots.length = 2
      ∧ (main (fun j => if j = 3 then EngineOutcome.status 1 else EngineOutcome.status 0)
          (fun _ _ _ => 0) 1).history.length = 2
      ∧ (main (fun j => if j = 3 then EngineOutcome.status 1 else EngineOutcome.status 0)
          (fun _ _ _ => 0) 1).outcome
          = DriverOutcome.solverFailed 3 (dp * ((3 : ℚ) - 1)) :=
  main_solver_failed
    (fun j => if j = 3 then EngineOutcome.status 1 else EngineOutcome.status 0)
    (fun _ _ _ => 0) 1 3 1 (by decide) (by decide)
    (by intro j h1j hj3; interval_cases j <;> rfl) rfl (by decide)

/-- C6: `static_analysis` propagates an engine exception unmodified to its
caller, and the driver catches it: if the engine raises at the k-th call after
converging before it, the run records the exception outcome with the failing
iteration and pressure, exports nothing for that step (`k - 1` snapshots and
history rows), keeps the startup coordinates file intact, and `main` still
returns a `RunResult` (the exception does not propagate out of `main`). -/
theorem main_engine_exception (engine : ℕ → EngineOutcome) (disp : ℕ → ℕ → ℕ → ℚ)
    (target_nid : ℕ) (k : ℕ) (e : String) (h1 : 1 ≤ k) (h12 : k ≤ 12)
    (hok : ∀ j, 1 ≤ j → j < k → engine j = EngineOutcome.status 0)
    (hk : engine k = EngineOutcome.raise e) :
    (∀ (analyze : Model → EngineOutcome) (m : Model) (p : ℚ) (msg : String),
        analyze (static_analysis analyze m p).1 = EngineOutcome.raise msg →
        (static_analysis analyze m p).2 = EngineOutcome.raise msg)
      ∧ (main engine disp target_nid).snapshots.length = k - 1
      ∧ (main engine disp target_nid).history.length = k - 1
      ∧ (main engine disp target_nid).outcome
          = DriverOutcome.solverException k (dp * ((k : ℚ) - 1)) e
      ∧ (main engine disp target_nid).coordsFile
          = (create_model false).nodes.map (fun nd => (nd.tag, nd.x, nd.y, nd.z)) := by
  have hstop := runLoop_raise engine disp target_nid (20 - k)
    (0 + dp * ((k - 1 : ℕ) : ℚ)) k e (kth_pressure_le k h1 h12) hk
  have hmain := main_stops_at engine disp target_nid k h1 h12 hok _ hstop
  refine ⟨?prop, by rw [hmain.1]; rfl, by rw [hmain.2.1]; rfl, ?out, rfl⟩
  · intro analyze m p msg hmsg
    rw [static_analysis_snd]
    exact hmsg
  · rw [hmain.2.2]
    dsimp only
    rw [kth_pressure_eq k h1]

/-- C6 witness: a stub engine raising at the 1st call yields zero snapshot
files and zero history rows, the startup coordinates intact, and outcome
`solverException` at iteration 1, pressure 0. -/
theorem main_engine_exception_witness :
    (main (fun _ => EngineOutcome.raise "boom") (fun _ _ _ => 0) 1).snapshots.length = 0
      ∧ (main (fun _ => EngineOutcome.raise "boom") (fun _ _ _ => 0) 1).history.length = 0
      ∧ (main (fun _ => EngineOutcome.raise "boom") (fun _ _ _ => 0) 1).outcome
          = DriverOutcome.solverException 1 (dp * ((1 : ℚ) - 1)) "boom"
      ∧ (main (fun _ => EngineOutcome.raise "boom") (fun _ _ _ => 0) 1).coordsFile
          = (create_model false).nodes.map (fun nd => (nd.tag, nd.x, nd.y, nd.z)) :=
  let h := main_engine_exception (fun _ => EngineOutcome.raise "boom")
    (fun _ _ _ => 0) 1 1 "boom" (by decide) (by decide)
    (by intro j h1j hj1; omega) rfl
  ⟨h.2.1, h.2.2.1, h.2.2.2.1, h.2.2.2.2⟩

end Claims56

section Claims910

/-- Helper: every snapshot the loop emits is named with the nonlinear naming
convention, keyed by its own step index. -/
theorem runLoop_snap_names (engine : ℕ → EngineOutcome) (disp : ℕ → ℕ → ℕ → ℚ)
    (target_nid : ℕ) :
    ∀ (fuel : ℕ) (p : ℚ) (itr : ℕ),
      ((runLoop engine disp target_nid fuel p itr).snaps.map (fun s => s.fname))
        = ((runLoop engine disp target_nid fuel p itr).snaps.map
            (fun s => "node_displacements_" ++ toString s.itr ++ "_nonlinear.csv")) := by
  intro fuel
  induction fuel with
  | zero => intro p itr; rfl
  | succ f ih =>
    intro p itr
    by_cases h5 : p ≤ 5
    · cases hs : engine itr with
      | raise e => rw [runLoop_raise engine disp target_nid f p itr e h5 hs]; rfl
      | status c =>
        by_cases hc : c = 0
        · subst hc
          rw [runLoop_okStep engine disp target_nid f p itr h5 hs]
          dsimp only
          simp only [List.map_cons]
          rw [ih (p + dp) (itr + 1)]
          rfl
        · rw [runLoop_fail engine disp target_nid f p itr c h5 hs hc]; rfl
    · rw [runLoop_guard_false engine disp target_nid f p itr h5]; rfl

/-- Helper: every snapshot the loop emits carries exactly the raw displacement
query results for all model nodes at its own step index. -/
theorem runLoop_snap_rows (engine : ℕ → EngineOutcome) (disp : ℕ → ℕ → ℕ → ℚ)
    (target_nid : ℕ) :
    ∀ (fuel : ℕ) (p : ℚ) (itr : ℕ),
      ((runLoop engine disp target_nid fuel p itr).snaps.map (fun s => s.rows))
        = ((runLoop engine disp target_nid fuel p itr).snaps.map
            (fun s => (create_model false).nodes.map (fun nd =>
              (nd.tag, disp s.itr nd.tag 1, disp s.itr nd.tag 2, disp s.itr nd.tag 3)))) := by
  intro fuel
  induction fuel with
  | zero => intro p itr; rfl
  | succ f ih =>
    intro p itr
    by_cases h5 : p ≤ 5
    · cases hs : engine itr with
      | raise e => rw [runLoop_raise engine disp target_nid f p itr e h5 hs]; rfl
      | status c =>
        by_cases hc : c = 0
        · subst hc
          rw [runLoop_okStep engine disp target_nid f p itr h5 hs]
          dsimp only
          simp only [List.map_cons]
          rw [ih (p + dp) (itr + 1)]
          rfl
        · rw [runLoop_fail engine disp target_nid f p itr c h5 hs hc]; rfl
    · rw [runLoop_guard_false engine disp target_nid f p itr h5]; rfl

/-- C9: the hardcoded `linear = False` makes every run take the nonlinear
branch: the nonlinear materials (ASDConcrete3D and Steel01) are defined and no
elastic material is, every snapshot file is named
`node_displacements_{itr}_nonlinear.csv` for its own step index, and the
history file is named `node_{target}_disp_history_nonlinear.csv`; the
`_linear` variants are never produced. -/
theorem nonlinear_branch_always (engine : ℕ → EngineOutcome) (disp : ℕ → ℕ → ℕ → ℚ)
    (target_nid : ℕ) :
    linear = false
      ∧ (create_model false).materials
          = [Material.asdConcrete3D 1 3600 0.2, Material.steel01 2 60 30000 0.01,
             Material.plateRebar 3 2 0, Material.plateRebar 4 2 90,
             Material.concrete01 6 (-6) (-0.004) (-5) (-0.014)]
      ∧ (create_model false).materials.filter isElasticMaterial = []
      ∧ (main engine disp target_nid).historyFname
          = "node_" ++ toString target_nid ++ "_disp_history_nonlinear.csv"
      ∧ ((main engine disp target_nid).snapshots.map (fun s => s.fname))
          = ((main engine disp target_nid).snapshots.map
              (fun s => "node_displacements_" ++ toString s.itr ++ "_nonlinear.csv")) := by
  refine ⟨rfl, rfl, rfl, rfl, ?names⟩
  show ((runLoop engine disp target_nid 20 0 1).snaps.map (fun s => s.fname)) = _
  exact runLoop_snap_names engine disp target_nid 20 0 1

/-- Helper: along the loop the pressure invariant `p = dp * (itr - 1)` holds,
so each emitted history row carries `round(p, 3)` of its own step pressure and
the raw displacement query results. -/
theorem runLoop_history_rows (engine : ℕ → EngineOutcome) (disp : ℕ → ℕ → ℕ → ℚ)
    (target_nid : ℕ) :
    ∀ (fuel : ℕ) (p : ℚ) (itr : ℕ), p = dp * ((itr : ℚ) - 1) →
      ((runLoop engine disp target_nid fuel p itr).history.map
          (fun r => (r.itr, r.p, r.ux, r.uy, r.uz)))
        = ((runLoop engine disp target_nid fuel p itr).history.map
            (fun r => (r.itr, round3 (dp * ((r.itr : ℚ) - 1)), disp r.itr target_nid 1,
              disp r.itr target_nid 2, disp r.itr target_nid 3))) := by
  intro fuel
  induction fuel with
  | zero => intro p itr _; rfl
  | succ f ih =>
    intro p itr hp
    by_cases h5 : p ≤ 5
    · cases hs : engine itr with
      | raise e => rw [runLoop_raise engine disp target_nid f p itr e h5 hs]; rfl
      | status c =>
        by_cases hc : c = 0
        · subst hc
          rw [runLoop_okStep engine disp target_nid f p itr h5 hs]
          dsimp only
          simp only [List.map_cons]
          have hnext : p + dp = dp * (((itr + 1 : ℕ) : ℚ) - 1) := by
            rw [hp]
            push_cast
            ring
          rw [ih (p + dp) (itr + 1) hnext]
          simp only [stepRow, hp]
        · rw [runLoop_fail engine disp target_nid f p itr c h5 hs hc]; rfl
    · rw [runLoop_guard_false engine disp target_nid f p itr h5]; rfl

/-- C10: in every run, each history row's pressure column is `round(p, 3)` of
the accumulated pressure of its step (`p = dp * (itr - 1)`), while its
displacement columns are exactly the raw displacement query results
(unrounded); snapshot rows likewise carry the raw displacements. -/
theorem history_pressure_rounded (engine : ℕ → EngineOutcome)
    (disp : ℕ → ℕ → ℕ → ℚ) (target_nid : ℕ) :
    ((main engine disp target_nid).history.map
        (fun r => (r.itr, r.p, r.ux, r.uy, r.uz)))
      = ((main engine disp target_nid).history.map
          (fun r => (r.itr, round3 (dp * ((r.itr : ℚ) - 1)), disp r.itr target_nid 1,
            disp r.itr target_nid 2, disp r.itr target_nid 3)))
    ∧ ((main engine disp target_nid).snapshots.map (fun s => s.rows))
        = ((main engine disp target_nid).snapshots.map
            (fun s => (create_model false).nodes.map (fun nd =>
              (nd.tag, disp s.itr nd.tag 1, disp s.itr nd.tag 2, disp s.itr nd.tag 3)))) := by
  constructor
  · show ((runLoop engine disp target_nid 20 0 1).history.map _) = _
    exact runLoop_history_rows engine disp target_nid 20 0 1 (by norm_num)
  · show ((runLoop engine disp target_nid 20 0 1).snaps.map _) = _
    exact runLoop_snap_rows engine disp target_nid 20 0 1

end Claims910

end ShellTest
